import Mathlib

/-!
Verification development for the RNAScope-counter repository
(`src/rnascope_counter/app.py`).

The Python source is shallowly embedded below.  Intensity values (numpy
floats) are modelled as rationals, machine integers as `Int`/`Nat`.
Fallible code returns `Except Err`.  The external library calls the code
makes (numpy slicing / `max` / `moveaxis`, `skimage.feature.peak_local_max`)
are embedded with their library semantics, since the repository relies on
them:

* numpy basic slicing `a[y:y+h, x:x+w]` clips silently to the axis length
  (Python slice normalisation);
* `peak_local_max(img, min_distance=d, threshold_abs=t)` with its default
  arguments: candidate mask `img == maximum_filter(img, size=2*d+1,
  mode="constant", cval=0)`, suppression of a trivial image (every pixel a
  candidate), strict threshold `img > t`, exclusion of a border of width
  `d`, then a greedy pass over the candidates sorted by decreasing
  intensity (stably, row-major order on ties) that rejects any candidate
  whose Chebyshev distance to an already accepted peak is strictly less
  than `d`.
-/

/-- Errors raised by the embedded code: `valueError` (the two explicit
`raise ValueError` sites of `load_image` plus numpy's error on reducing an
empty axis), `indexError` (Python list indexing out of range).
`invalidState` names the state-machine error of the design document's
error taxonomy; it is declared so that statements can refer to it, but no
embedded function ever produces it. -/
inductive Err where
  | valueError (msg : String)
  | indexError
  | invalidState
deriving DecidableEq

/-! ## Two-dimensional arrays and rectangles -/

/-- A 2-D numpy array of rationals: `data i j` is only meaningful for
`i < rows` and `j < cols`. -/
structure Arr2 where
  rows : Nat
  cols : Nat
  data : Nat → Nat → ℚ

/-- A Qt `QRect` as used by `analyze`: `left`/`top`/`width`/`height` are
machine integers. -/
structure Rect where
  left : Int
  top : Int
  width : Int
  height : Int

/-- Python slice-bound normalisation for an axis of length `n`: a negative
bound counts from the end, and the result is clamped into `[0, n]`. -/
def sliceNorm (n : Nat) (a : Int) : Nat :=
  let a' : Int := if a < 0 then a + n else a
  (max a' 0).toNat.min n

/-- `img[y : y + h, x : x + w]` with numpy basic-slicing semantics
(out-of-range bounds are clipped, an empty range gives an empty array). -/
def slice2 (img : Arr2) (y h x w : Int) : Arr2 :=
  let r0 := sliceNorm img.rows y
  let r1 := sliceNorm img.rows (y + h)
  let c0 := sliceNorm img.cols x
  let c1 := sliceNorm img.cols (x + w)
  { rows := r1 - r0
    cols := c1 - c0
    data := fun i j => img.data (r0 + i) (c0 + j) }

/-- The sub-array `channel[rect.top : rect.top + rect.height,
rect.left : rect.left + rect.width]` extracted by `analyze`. -/
def subOf (channel : Arr2) (rect : Rect) : Arr2 :=
  slice2 channel rect.top rect.height rect.left rect.width

/-! ## peak_local_max -/

/-- Offsets of the square footprint of side `2*d+1` centred at the
origin. -/
def windowOffsets (d : Nat) : List (Int × Int) :=
  (List.range (2 * d + 1)).flatMap fun a : Nat =>
    (List.range (2 * d + 1)).map fun b : Nat => ((a : Int) - d, (b : Int) - d)

/-- Pixel access with the `mode="constant", cval=0` padding of
`scipy.ndimage.maximum_filter`. -/
def paddedAt (img : Arr2) (i j : Int) : ℚ :=
  if 0 ≤ i ∧ i < img.rows ∧ 0 ≤ j ∧ j < img.cols then
    img.data i.toNat j.toNat
  else 0

/-- `maximum_filter(img, size=2*d+1, mode="constant")` at pixel `(i, j)`:
the maximum of the zero-padded image over the window. -/
def maxFilterAt (img : Arr2) (d i j : Nat) : ℚ :=
  (windowOffsets d).foldl
    (fun m p => max m (paddedAt img ((i : Int) + p.1) ((j : Int) + p.2)))
    (img.data i j)

/-- Candidate test `img == image_max` of the peak mask. -/
def rawPeak (img : Arr2) (d i j : Nat) : Bool :=
  decide (img.data i j = maxFilterAt img d i j)

/-- The trivial-image test of `peak_local_max`: every pixel equals the
filtered maximum (e.g. a constant image), in which case all candidates are
suppressed. -/
def isTrivialImg (img : Arr2) (d : Nat) : Bool :=
  (List.range img.rows).all fun i =>
    (List.range img.cols).all fun j => rawPeak img d i j

/-- The peak mask before border exclusion: candidates of a non-trivial
image whose value strictly exceeds the threshold; a size-one image (or a
size-one footprint) skips the maximum filter. -/
def peakMask (img : Arr2) (d : Nat) (thr : ℚ) (i j : Nat) : Bool :=
  if (2 * d + 1) * (2 * d + 1) = 1 ∨ img.rows * img.cols = 1 then
    decide (thr < img.data i j)
  else
    (!(isTrivialImg img d) && rawPeak img d i j) && decide (thr < img.data i j)

/-- Border exclusion of width `d` along both axes
(`exclude_border=True`). -/
def borderOK (img : Arr2) (d i j : Nat) : Bool :=
  decide (d ≤ i) && decide (i < img.rows - d) &&
  decide (d ≤ j) && decide (j < img.cols - d)

/-- Row-major coordinates of the surviving mask entries. -/
def coordsRowMajor (img : Arr2) (d : Nat) (thr : ℚ) : List (Nat × Nat) :=
  (List.range img.rows).flatMap fun i =>
    ((List.range img.cols).filter fun j =>
        peakMask img d thr i j && borderOK img d i j).map fun j => (i, j)

/-- Stable insertion of a coordinate into a list sorted by decreasing
intensity: it goes after every earlier coordinate of intensity at least
its own. -/
def insertDesc (img : Arr2) (p : Nat × Nat) : List (Nat × Nat) → List (Nat × Nat)
  | [] => [p]
  | q :: qs =>
    if img.data q.1 q.2 < img.data p.1 p.2 then p :: q :: qs
    else q :: insertDesc img p qs

/-- Stable sort by decreasing intensity (`np.argsort` of the negated
intensities, ties in row-major order). -/
def sortDesc (img : Arr2) (l : List (Nat × Nat)) : List (Nat × Nat) :=
  l.foldl (fun acc p => insertDesc img p acc) []

/-- Distance between two natural numbers. -/
def natDist (a b : Nat) : Nat := max (a - b) (b - a)

/-- Chebyshev distance strictly below `d` (`ensure_spacing` rejects at
distance `< spacing` and keeps distance `= spacing`). -/
def tooClose (d : Nat) (p q : Nat × Nat) : Bool :=
  max (natDist p.1 q.1) (natDist p.2 q.2) < d

/-- The greedy pass of `skimage ensure_spacing`: walk the candidates in
order, rejecting any candidate strictly closer than `d` (Chebyshev) to an
already accepted one. -/
def ensureSpacing (d : Nat) : List (Nat × Nat) → List (Nat × Nat) → List (Nat × Nat)
  | acc, [] => acc.reverse
  | acc, p :: rest =>
    if acc.any (fun q => tooClose d q p) then ensureSpacing d acc rest
    else ensureSpacing d (p :: acc) rest

/-- `skimage.feature.peak_local_max(img, min_distance=d, threshold_abs=thr)`
with the remaining arguments at their defaults. -/
def peak_local_max (img : Arr2) (d : Nat) (thr : ℚ) : List (Nat × Nat) :=
  ensureSpacing d [] (sortDesc img (coordsRowMajor img d thr))

/-! ## analyze -/

/-- `analyze(channel, rect, pixel_spacing, threshold=100)` of
`app.py`: returns `(count, total, avg, density)`. -/
def analyze (channel : Arr2) (rect : Rect) (pixel_spacing : ℚ)
    (threshold : ℚ := 100) : Nat × ℚ × ℚ × ℚ :=
  let sub := subOf channel rect
  let coords := peak_local_max sub 2 threshold
  let intensities := coords.map fun p => sub.data p.1 p.2
  let count := intensities.length
  let total : ℚ := if 0 < count then intensities.sum else 0
  let avg : ℚ := if 0 < count then intensities.sum / (count : ℚ) else 0
  let area : ℚ := ((rect.width : ℚ) * pixel_spacing) * ((rect.height : ℚ) * pixel_spacing)
  let density : ℚ := if 0 < area then (count : ℚ) / area else 0
  (count, total, avg, density)

/-- Modelled from the spec for the amended out-of-bounds claim: the
rectangle clamped to the channel bounds (the intersection of the requested
rectangle with the image, for a rectangle with non-negative fields). -/
def clampRect (c : Arr2) (r : Rect) : Rect :=
  let t : Int := min r.top (c.rows : Int)
  let l : Int := min r.left (c.cols : Int)
  { left := l
    top := t
    width := min (r.left + r.width) (c.cols : Int) - l
    height := min (r.top + r.height) (c.rows : Int) - t }

/-! ## array_to_qimage (the display normalizer) -/

/-- A 2-D 8-bit buffer. -/
structure Arr2N where
  rows : Nat
  cols : Nat
  data : Nat → Nat → Nat

/-- The list of elements of a 2-D array, row-major. -/
def elemsOf (a : Arr2) : List ℚ :=
  (List.range a.rows).flatMap fun i => (List.range a.cols).map fun j => a.data i j

/-- `arr.min()` over a non-empty array (the fold starts at element
`(0, 0)`, which the element list contains). -/
def arrMin (a : Arr2) : ℚ := (elemsOf a).foldl min (a.data 0 0)

/-- `arr.max()` over a non-empty array. -/
def arrMax (a : Arr2) : ℚ := (elemsOf a).foldl max (a.data 0 0)

/-- Truncation of a non-negative rational to `uint8` as `astype(np.uint8)`
does for values in range (truncate toward zero, wrap modulo 256). -/
def ratToUint8 (x : ℚ) : Nat := x.floor.toNat % 256

/-- `array_to_qimage` of `app.py`, up to the pixel buffer: subtract the
minimum, divide by the maximum when it is positive, scale by 255 and
truncate to `uint8`.  numpy raises on reducing an empty array, embedded as
a `valueError`. -/
def array_to_qimage (a : Arr2) : Except Err Arr2N :=
  if a.rows * a.cols = 0 then
    .error (.valueError "zero-size array to reduction operation minimum which has no identity")
  else
    let shifted : Arr2 := { rows := a.rows, cols := a.cols,
                            data := fun i j => a.data i j - arrMin a }
    let m := arrMax shifted
    let scaled : Arr2 :=
      if 0 < m then
        { rows := a.rows, cols := a.cols, data := fun i j => shifted.data i j / m }
      else shifted
    .ok { rows := a.rows, cols := a.cols,
          data := fun i j => ratToUint8 (scaled.data i j * 255) }

/-! ## load_image -/

/-- An N-dimensional numpy array: `data idx` is meaningful for index lists
`idx` that match `shape`. -/
structure NDArray where
  shape : List Nat
  data : List Nat → ℚ

/-- Number of dimensions. -/
def NDArray.ndim (a : NDArray) : Nat := a.shape.length

/-- `data.max(axis=0)`: drop the leading axis, taking at each remaining
position the maximum across it (meaningful for a non-empty leading
axis). -/
def maxAxis0 (a : NDArray) : NDArray :=
  { shape := a.shape.tail
    data := fun idx =>
      (List.range (a.shape.headD 0)).foldl
        (fun m z => max m (a.data (z :: idx))) (a.data (0 :: idx)) }

/-- `np.moveaxis(data, -1, 0)` on a 3-D array: the last axis becomes the
first. -/
def moveaxisLast0 (a : NDArray) : NDArray :=
  { shape := match a.shape with
      | [h, w, c] => [c, h, w]
      | s => s
    data := fun idx => match idx with
      | [k, i, j] => a.data [i, j, k]
      | idx => a.data idx }

/-- The channel-layout checks at the end of `load_image`. -/
def chanCheck (d : NDArray) : Except Err NDArray :=
  if d.ndim = 3 ∧ d.shape.headD 0 = 3 then .ok d
  else if d.ndim = 3 ∧ d.shape.getLastD 0 = 3 then .ok (moveaxisLast0 d)
  else .error (.valueError "Expected 3-channel image")

/-- `load_image` of `app.py`, applied to the array read from the file: a
4-D array is either rejected (flagged as already projected) or
max-projected over its leading axis, then the result must be 3-D with a
channel axis of length 3 first (used as-is) or last (moved to the
front). -/
def load_image (a : NDArray) (already_max_projected : Bool) : Except Err NDArray :=
  if a.ndim = 4 then
    if already_max_projected then
      .error (.valueError "Image flagged as already max-projected but still has a z dimension")
    else if a.shape.headD 0 = 0 then
      .error (.valueError "zero-size array to reduction operation maximum which has no identity")
    else chanCheck (maxAxis0 a)
  else chanCheck a

/-! ## The acquisition state machine -/

/-- One report row: `[region, chan_name, count, total, avg, density]`. -/
structure Row where
  region : String
  chan : String
  count : Nat
  total : ℚ
  avg : ℚ
  density : ℚ
deriving DecidableEq

/-- The mutable state of `RNAScopeCounterApp` (GUI members omitted).  The
two ROI dictionaries are insertion-ordered association lists, like Python
dicts. -/
structure Session where
  hippChannels : List Arr2
  thalChannels : List Arr2
  pixelSpacing : ℚ
  currentImage : String
  expectedRois : List String
  currentRoiIndex : Nat
  hippRois : List (String × Rect)
  thalRois : List (String × Rect)

/-- The state set up by `RNAScopeCounterApp.__init__` (after both channel
stacks are loaded). -/
def initSession (hc tc : List Arr2) (sp : ℚ) : Session :=
  { hippChannels := hc
    thalChannels := tc
    pixelSpacing := sp
    currentImage := "hippocampus"
    expectedRois := ["CA1", "CA3", "DG"]
    currentRoiIndex := 0
    hippRois := []
    thalRois := [] }

/-- Python dict assignment `d[k] = v`: overwrite in place if the key is
present, otherwise append. -/
def dictInsert (d : List (String × Rect)) (k : String) (v : Rect) :
    List (String × Rect) :=
  if d.any (fun p => p.1 == k) then
    d.map fun p => if p.1 == k then (k, v) else p
  else d ++ [(k, v)]

/-- The `(chan_name, chan_idx)` pairs of `finish`. -/
def channelPairs : List (String × Nat) := [("GOB", 1), ("GOA", 2)]

/-- Default array for out-of-range channel access (never reached for
stacks produced by `load_image`, which always have 3 channels). -/
def emptyArr : Arr2 := { rows := 0, cols := 0, data := fun _ _ => 0 }

/-- `RNAScopeCounterApp.finish`: the ordered result rows handed to the CSV
writer — every hippocampus region (insertion order) with channels GOB then
GOA, then every thalamus region likewise. -/
def finish (s : Session) : List Row :=
  (s.hippRois.flatMap fun pr =>
    channelPairs.map fun cp =>
      let r := analyze (s.hippChannels.getD cp.2 emptyArr) pr.2 s.pixelSpacing
      { region := pr.1, chan := cp.1,
        count := r.1, total := r.2.1, avg := r.2.2.1, density := r.2.2.2 })
  ++ (s.thalRois.flatMap fun pr =>
    channelPairs.map fun cp =>
      let r := analyze (s.thalChannels.getD cp.2 emptyArr) pr.2 s.pixelSpacing
      { region := pr.1, chan := cp.1,
        count := r.1, total := r.2.1, avg := r.2.2.1, density := r.2.2.2 })

/-- `RNAScopeCounterApp._roi_complete(rect)`: reading
`expected_rois[current_roi_index]` raises `IndexError` when the index is
exhausted; otherwise the rectangle is stored under the current region
name, the index advances, and either the session waits for the next
region, switches to the thalamus image, or runs `finish` (whose row list
is returned alongside the new state). -/
def submit (s : Session) (r : Rect) : Except Err (Session × Option (List Row)) :=
  if h : s.currentRoiIndex < s.expectedRois.length then
    let region := s.expectedRois.get ⟨s.currentRoiIndex, h⟩
    let s1 :=
      if s.currentImage = "hippocampus" then
        { s with hippRois := dictInsert s.hippRois region r }
      else
        { s with thalRois := dictInsert s.thalRois region r }
    let s2 := { s1 with currentRoiIndex := s1.currentRoiIndex + 1 }
    if s2.currentRoiIndex < s2.expectedRois.length then
      .ok (s2, none)
    else if s2.currentImage = "hippocampus" then
      .ok ({ s2 with currentImage := "thalamus",
                     expectedRois := ["Thalamus"],
                     currentRoiIndex := 0 }, none)
    else
      .ok (s2, some (finish s2))
  else
    .error Err.indexError

/-- Run a list of submissions in order; the report of the last submission
(if any) is returned with the final state, and the first error aborts the
run. -/
def runRep : Session → List Rect → Except Err (Session × Option (List Row))
  | s, [] => .ok (s, none)
  | s, r :: rs =>
    match submit s r with
    | .error e => .error e
    | .ok (s1, out) =>
      match rs with
      | [] => .ok (s1, out)
      | _ :: _ => runRep s1 rs

/-! ## Concrete instances used by witnesses and counterexamples -/

/-- A 4-D array of shape `(1, 1, 1, 1)`. -/
def nd1111 : NDArray := { shape := [1, 1, 1, 1], data := fun _ => 0 }

/-- A 4-D array of shape `(3, 3, 50, 60)` (depth, channel, height, width). -/
def ndZStack : NDArray := { shape := [3, 3, 50, 60], data := fun idx => (idx.sum : ℚ) }

/-- A 3-D array of shape `(50, 60, 3)` (channel last). -/
def ndChanLast : NDArray := { shape := [50, 60, 3], data := fun idx => (idx.sum : ℚ) }

/-- A 3-D array of shape `(3, 5, 3)` (both candidate channel axes of
length 3). -/
def ndBoth3 : NDArray := { shape := [3, 5, 3], data := fun idx => (idx.sum : ℚ) }

/-- A 2-by-2 all-zero channel. -/
def chanZ2 : Arr2 := { rows := 2, cols := 2, data := fun _ _ => 0 }

/-- A 4-by-4 all-zero channel. -/
def chanZ4 : Arr2 := { rows := 4, cols := 4, data := fun _ _ => 0 }

/-- A rectangle reaching past the bounds of `chanZ2`. -/
def rectOOB : Rect := { left := 0, top := 0, width := 5, height := 5 }

/-- A small in-bounds rectangle. -/
def rectA : Rect := { left := 0, top := 0, width := 1, height := 1 }

/-- The width-100, height-50 rectangle of the density test. -/
def rectDen : Rect := { left := 0, top := 0, width := 100, height := 50 }

/-- A 3-channel stack of all-zero channels. -/
def chans0 : List Arr2 := [chanZ4, chanZ4, chanZ4]

/-- The (reachable) session state after all four regions are captured. -/
def sessComplete : Session :=
  { hippChannels := chans0
    thalChannels := chans0
    pixelSpacing := 1
    currentImage := "thalamus"
    expectedRois := ["Thalamus"]
    currentRoiIndex := 1
    hippRois := [("CA1", rectA), ("CA3", rectA), ("DG", rectA)]
    thalRois := [("Thalamus", rectA)] }

/-- The session state after one captured region. -/
def sessOne : Session :=
  { initSession chans0 chans0 1 with
      currentRoiIndex := 1
      hippRois := [("CA1", rectA)] }

/-- The session state after two captured regions. -/
def sessTwo : Session :=
  { initSession chans0 chans0 1 with
      currentRoiIndex := 2
      hippRois := [("CA1", rectA), ("CA3", rectA)] }

/-- A 2-by-2 constant channel of value 5. -/
def chanC : Arr2 := { rows := 2, cols := 2, data := fun _ _ => 5 }

/-- Decidable check that an 8-bit buffer is all-zero on its valid
region. -/
def allZeroB (o : Arr2N) : Bool :=
  (List.range o.rows).all fun i => (List.range o.cols).all fun j => o.data i j == 0

/-- The session state reached after each possible number (0 to 4) of
successful ROI submissions; lists of five or more rectangles cannot be run
successfully, and get a junk value. -/
def stateAfter (hc tc : List Arr2) (sp : ℚ) : List Rect → Session
  | [] => initSession hc tc sp
  | [r1] =>
    { initSession hc tc sp with
        currentRoiIndex := 1
        hippRois := [("CA1", r1)] }
  | [r1, r2] =>
    { initSession hc tc sp with
        currentRoiIndex := 2
        hippRois := [("CA1", r1), ("CA3", r2)] }
  | [r1, r2, r3] =>
    { initSession hc tc sp with
        currentImage := "thalamus"
        expectedRois := ["Thalamus"]
        currentRoiIndex := 0
        hippRois := [("CA1", r1), ("CA3", r2), ("DG", r3)] }
  | r1 :: r2 :: r3 :: r4 :: _ =>
    { initSession hc tc sp with
        currentImage := "thalamus"
        expectedRois := ["Thalamus"]
        currentRoiIndex := 1
        hippRois := [("CA1", r1), ("CA3", r2), ("DG", r3)]
        thalRois := [("Thalamus", r4)] }

/-! ## Claim C10 -/

/-- C10: a 3-D array whose first and last axes both have length 3 is
returned unchanged by `load_image` — the channel-first branch takes
precedence and no reordering happens. -/
theorem load_image_channel_first_precedence (a : NDArray) (h : Nat) (b : Bool)
    (hs : a.shape = [3, h, 3]) : load_image a b = .ok a := by
  simp [load_image, chanCheck, NDArray.ndim, hs]

/-- Witness for C10 at the concrete shape `(3, 5, 3)`. -/
theorem load_image_channel_first_precedence_witness :
    load_image ndBoth3 true = .ok ndBoth3 :=
  load_image_channel_first_precedence ndBoth3 5 true rfl

/-! ## Claim C5 -/

/-- C5: for a 3-D array, `load_image` returns it as-is when the first axis
has length 3; otherwise, when the last axis has length 3, it moves the
channel axis to the front (shape `(h, w, 3)` becomes `(3, h, w)`,
content-equal under transposition); a 3-D array with neither axis of
length 3, or an array that is neither 3-D nor 4-D, fails with the
"Expected 3-channel image" error. -/
theorem load_image_3d_cases (a : NDArray) :
    (∀ h w b, a.shape = [3, h, w] → load_image a b = .ok a) ∧
    (∀ h w b, a.shape = [h, w, 3] → h ≠ 3 →
      load_image a b = .ok (moveaxisLast0 a) ∧
      (moveaxisLast0 a).shape = [3, h, w] ∧
      ∀ k i j, (moveaxisLast0 a).data [k, i, j] = a.data [i, j, k]) ∧
    (∀ x y z b, a.shape = [x, y, z] → x ≠ 3 → z ≠ 3 →
      load_image a b = .error (Err.valueError "Expected 3-channel image")) ∧
    (∀ b, a.ndim ≠ 3 → a.ndim ≠ 4 →
      load_image a b = .error (Err.valueError "Expected 3-channel image")) := by
  refine ⟨?_, ?_, ?_, ?_⟩
  · intro h w b hs
    simp [load_image, chanCheck, NDArray.ndim, hs]
  · intro h w b hs hne
    refine ⟨?_, ?_, fun k i j => rfl⟩
    · simp [load_image, chanCheck, NDArray.ndim, hs, hne]
    · simp [moveaxisLast0, hs]
  · intro x y z b hs hx hz
    simp [load_image, chanCheck, NDArray.ndim, hs, hx, hz]
  · intro b h3 h4
    simp only [NDArray.ndim] at h3 h4
    simp [load_image, chanCheck, NDArray.ndim, h3, h4]

/-- Witness for C5 at the concrete shape `(50, 60, 3)`. -/
theorem load_image_3d_cases_witness :
    load_image ndChanLast false = .ok (moveaxisLast0 ndChanLast) ∧
    (moveaxisLast0 ndChanLast).shape = [3, 50, 60] :=
  ⟨((load_image_3d_cases ndChanLast).2.1 50 60 false rfl (by decide)).1,
   ((load_image_3d_cases ndChanLast).2.1 50 60 false rfl (by decide)).2.1⟩

/-! ## Claim C4 -/

/-- C4 counterexample: `load_image` with `already_max_projected=False`
does not return the depth projection of every 4-D array — a `(1, 1, 1, 1)`
input fails the 3-channel check instead. -/
theorem load_image_4d_not_always_projection :
    nd1111.ndim = 4 ∧
    load_image nd1111 false = .error (Err.valueError "Expected 3-channel image") :=
  ⟨rfl, rfl⟩

/-- C4 as amended: for a 4-D array of shape `(z+1, 3, h, w)` (non-empty
depth axis, channel axis of length 3 first after projection),
`load_image` with the flag unset returns the maximum-intensity projection
over depth; with the flag set, any 4-D array fails with the
z-dimension error. -/
theorem load_image_4d_amended (a : NDArray) :
    (∀ z h w, a.shape = [z + 1, 3, h, w] → load_image a false = .ok (maxAxis0 a)) ∧
    (a.ndim = 4 →
      load_image a true =
        .error (Err.valueError
          "Image flagged as already max-projected but still has a z dimension")) := by
  constructor
  · intro z h w hs
    simp [load_image, chanCheck, maxAxis0, NDArray.ndim, hs]
  · intro h4
    simp only [NDArray.ndim] at h4
    simp [load_image, NDArray.ndim, h4]

/-- Witness for C4 at the concrete shape `(3, 3, 50, 60)`. -/
theorem load_image_4d_amended_witness :
    load_image ndZStack false = .ok (maxAxis0 ndZStack) ∧
    load_image ndZStack true =
      .error (Err.valueError
        "Image flagged as already max-projected but still has a z dimension") :=
  ⟨(load_image_4d_amended ndZStack).1 2 50 60 rfl,
   (load_image_4d_amended ndZStack).2 rfl⟩

/-! ## Claim C9 -/

/-- Every element of the row-major element list comes from a valid
index. -/
theorem mem_elemsOf {a : Arr2} {x : ℚ} (h : x ∈ elemsOf a) :
    ∃ i j, i < a.rows ∧ j < a.cols ∧ x = a.data i j := by
  simp only [elemsOf, List.mem_flatMap, List.mem_map, List.mem_range] at h
  obtain ⟨i, hi, j, hj, hx⟩ := h
  exact ⟨i, j, hi, hj, hx.symm⟩

/-- Folding `min` over a list of copies of `c`, starting from `c`, gives
`c`. -/
theorem foldl_min_const :
    ∀ (l : List ℚ) (c init : ℚ), (∀ x ∈ l, x = c) → init = c →
      l.foldl min init = c := by
  intro l
  induction l with
  | nil => intro c init _ h; simpa using h
  | cons y ys ih =>
    intro c init hall hinit
    simp only [List.foldl_cons]
    refine ih c _ (fun x hx => hall x (List.mem_cons_of_mem _ hx)) ?_
    rw [hinit, hall y (List.mem_cons_self _ _), min_self]

/-- Folding `max` over a list of copies of `c`, starting from `c`, gives
`c`. -/
theorem foldl_max_const :
    ∀ (l : List ℚ) (c init : ℚ), (∀ x ∈ l, x = c) → init = c →
      l.foldl max init = c := by
  intro l
  induction l with
  | nil => intro c init _ h; simpa using h
  | cons y ys ih =>
    intro c init hall hinit
    simp only [List.foldl_cons]
    refine ih c _ (fun x hx => hall x (List.mem_cons_of_mem _ hx)) ?_
    rw [hinit, hall y (List.mem_cons_self _ _), max_self]

/-- C9: normalizing a non-empty constant-valued channel yields an 8-bit
buffer of the same dimensions that is all zero on its valid region — the
maximum after min-subtraction is 0, so the division branch is not taken
and no division by zero occurs. -/
theorem array_to_qimage_constant (a : Arr2) (hr : 0 < a.rows) (hc : 0 < a.cols)
    (hconst : ∀ i j, i < a.rows → j < a.cols → a.data i j = a.data 0 0) :
    (array_to_qimage a).map (fun o => (o.rows, o.cols, allZeroB o)) =
      .ok (a.rows, a.cols, true) := by
  have hne : a.rows * a.cols ≠ 0 := (Nat.mul_pos hr hc).ne'
  have hmin : arrMin a = a.data 0 0 := by
    refine foldl_min_const _ _ _ (fun x hx => ?_) rfl
    obtain ⟨i, j, hi, hj, hx⟩ := mem_elemsOf hx
    rw [hx]
    exact hconst i j hi hj
  have hmax :
      arrMax { rows := a.rows, cols := a.cols,
               data := fun i j => a.data i j - arrMin a } = 0 := by
    refine foldl_max_const _ _ _ (fun x hx => ?_) ?_
    · obtain ⟨i, j, hi, hj, hx⟩ := mem_elemsOf hx
      rw [hx]
      show a.data i j - arrMin a = 0
      rw [hmin, hconst i j hi hj, sub_self]
    · show a.data 0 0 - arrMin a = 0
      rw [hmin, sub_self]
  unfold array_to_qimage
  rw [if_neg hne]
  simp only [Except.map, hmax]
  norm_num
  simp only [allZeroB, List.all_eq_true, List.mem_range, beq_iff_eq]
  intro i hi j hj
  show ratToUint8 ((a.data i j - arrMin a) * 255) = 0
  rw [hmin, hconst i j hi hj, sub_self, zero_mul]
  rfl

/-- Witness for C9: a 2-by-2 channel of constant value 5 normalizes to the
all-zero buffer. -/
theorem array_to_qimage_constant_witness :
    (array_to_qimage chanC).map (fun o => (o.rows, o.cols, allZeroB o)) =
      .ok (2, 2, true) :=
  array_to_qimage_constant chanC (by decide) (by decide) (fun _ _ _ _ => rfl)

/-! ## Claim C6 -/

/-- The density component of `analyze` in closed form. -/
theorem analyze_density_eq (channel : Arr2) (rect : Rect) (sp thr : ℚ) :
    (analyze channel rect sp thr).2.2.2 =
      if 0 < ((rect.width : ℚ) * sp) * ((rect.height : ℚ) * sp) then
        ((analyze channel rect sp thr).1 : ℚ) /
          (((rect.width : ℚ) * sp) * ((rect.height : ℚ) * sp))
      else 0 := rfl

/-- C6: the density returned by `analyze` is the returned count divided by
the physical area `(W * S) * (H * S)` whenever that product is strictly
positive, and 0 whenever the product is zero or negative. -/
theorem analyze_density_formula (channel : Arr2) (rect : Rect) (sp thr : ℚ) :
    (0 < ((rect.width : ℚ) * sp) * ((rect.height : ℚ) * sp) →
      (analyze channel rect sp thr).2.2.2 =
        ((analyze channel rect sp thr).1 : ℚ) /
          (((rect.width : ℚ) * sp) * ((rect.height : ℚ) * sp))) ∧
    (((rect.width : ℚ) * sp) * ((rect.height : ℚ) * sp) ≤ 0 →
      (analyze channel rect sp thr).2.2.2 = 0) := by
  constructor
  · intro h
    rw [analyze_density_eq, if_pos h]
  · intro h
    rw [analyze_density_eq, if_neg (not_lt.mpr h)]

/-- Witness for C6 at pixel spacing 0.4475 (= 179/400), width 100,
height 50. -/
theorem analyze_density_formula_witness :
    (analyze chanZ4 rectDen (179/400) 100).2.2.2 =
      ((analyze chanZ4 rectDen (179/400) 100).1 : ℚ) /
        (((rectDen.width : ℚ) * (179/400)) * ((rectDen.height : ℚ) * (179/400))) :=
  (analyze_density_formula chanZ4 rectDen (179/400) 100).1 (by norm_num [rectDen])

/-! ## Claim C7 -/

/-- A normalised slice bound never exceeds the axis length. -/
theorem sliceNorm_le (n : Nat) (a : Int) : sliceNorm n a ≤ n :=
  Nat.min_le_right _ _

/-- Everything in the output of the greedy spacing pass was an input (or
was already accepted). -/
theorem mem_of_mem_ensureSpacing {d : Nat} :
    ∀ {l acc : List (Nat × Nat)} {x}, x ∈ ensureSpacing d acc l → x ∈ acc ∨ x ∈ l := by
  intro l
  induction l with
  | nil =>
    intro acc x h
    simp only [ensureSpacing, List.mem_reverse] at h
    exact Or.inl h
  | cons p rest ih =>
    intro acc x h
    simp only [ensureSpacing] at h
    by_cases hc : acc.any (fun q => tooClose d q p)
    · rw [if_pos hc] at h
      rcases ih h with h1 | h1
      · exact Or.inl h1
      · exact Or.inr (List.mem_cons_of_mem _ h1)
    · rw [if_neg hc] at h
      rcases ih h with h1 | h1
      · rcases List.mem_cons.mp h1 with h2 | h2
        · exact Or.inr (h2 ▸ List.mem_cons_self _ _)
        · exact Or.inl h2
      · exact Or.inr (List.mem_cons_of_mem _ h1)

/-- Everything in an insertion result is the inserted element or was in
the list. -/
theorem mem_of_mem_insertDesc {img : Arr2} {p x : Nat × Nat} :
    ∀ {l}, x ∈ insertDesc img p l → x = p ∨ x ∈ l := by
  intro l
  induction l with
  | nil =>
    intro h
    simp only [insertDesc, List.mem_singleton] at h
    exact Or.inl h
  | cons q qs ih =>
    intro h
    simp only [insertDesc] at h
    by_cases hc : img.data q.1 q.2 < img.data p.1 p.2
    · rw [if_pos hc] at h
      rcases List.mem_cons.mp h with h1 | h1
      · exact Or.inl h1
      · exact Or.inr h1
    · rw [if_neg hc] at h
      rcases List.mem_cons.mp h with h1 | h1
      · exact Or.inr (h1 ▸ List.mem_cons_self _ _)
      · rcases ih h1 with h2 | h2
        · exact Or.inl h2
        · exact Or.inr (List.mem_cons_of_mem _ h2)

/-- Auxiliary: membership through the insertion-sort fold. -/
theorem mem_of_mem_sortDesc_aux {img : Arr2} :
    ∀ (l acc : List (Nat × Nat)) (x),
      x ∈ l.foldl (fun a p => insertDesc img p a) acc → x ∈ acc ∨ x ∈ l := by
  intro l
  induction l with
  | nil => intro acc x h; exact Or.inl h
  | cons p rest ih =>
    intro acc x h
    simp only [List.foldl_cons] at h
    rcases ih _ _ h with h1 | h1
    · rcases mem_of_mem_insertDesc h1 with h2 | h2
      · exact Or.inr (h2 ▸ List.mem_cons_self _ _)
      · exact Or.inl h2
    · exact Or.inr (List.mem_cons_of_mem _ h1)

/-- The stable sort only permutes its input. -/
theorem mem_of_mem_sortDesc {img : Arr2} {l : List (Nat × Nat)} {x}
    (h : x ∈ sortDesc img l) : x ∈ l := by
  rcases mem_of_mem_sortDesc_aux l [] x h with h1 | h1
  · cases h1
  · exact h1

/-- A coordinate emitted by the mask scan is in bounds and passed both the
peak mask and the border exclusion. -/
theorem mem_coordsRowMajor {img : Arr2} {d : Nat} {thr : ℚ} {p : Nat × Nat}
    (h : p ∈ coordsRowMajor img d thr) :
    p.1 < img.rows ∧ p.2 < img.cols ∧
      peakMask img d thr p.1 p.2 = true ∧ borderOK img d p.1 p.2 = true := by
  simp only [coordsRowMajor, List.mem_flatMap, List.mem_map, List.mem_filter,
    List.mem_range] at h
  obtain ⟨i, hi, j, ⟨hj, hm⟩, hp⟩ := h
  cases hp
  simp only [Bool.and_eq_true] at hm
  exact ⟨hi, hj, hm.1, hm.2⟩

/-- The initial value is below a `max`-fold. -/
theorem init_le_foldl_max {α : Type} (g : α → ℚ) :
    ∀ (l : List α) (init : ℚ), init ≤ l.foldl (fun m x => max m (g x)) init := by
  intro l
  induction l with
  | nil => intro init; exact le_refl _
  | cons y ys ih =>
    intro init
    simp only [List.foldl_cons]
    exact le_trans (le_max_left _ _) (ih _)

/-- Every listed value is below a `max`-fold over the list. -/
theorem mem_le_foldl_max {α : Type} (g : α → ℚ) :
    ∀ (l : List α) (init : ℚ) (x), x ∈ l →
      g x ≤ l.foldl (fun m x => max m (g x)) init := by
  intro l
  induction l with
  | nil => intro init x h; cases h
  | cons y ys ih =>
    intro init x h
    simp only [List.foldl_cons]
    rcases List.mem_cons.mp h with h1 | h1
    · rw [h1]
      exact le_trans (le_max_right _ _) (init_le_foldl_max g ys _)
    · exact ih _ x h1

/-- Every offset with both components in `[-d, d]` is in the footprint. -/
theorem mem_windowOffsets_of {d : Nat} {a b : Int}
    (ha1 : -(d : Int) ≤ a) (ha2 : a ≤ d) (hb1 : -(d : Int) ≤ b) (hb2 : b ≤ d) :
    (a, b) ∈ windowOffsets d := by
  have hx : ((a + d).toNat : Int) - d = a := by omega
  have hy : ((b + d).toNat : Int) - d = b := by omega
  have hx2 : (a + d).toNat < 2 * d + 1 := by omega
  have hy2 : (b + d).toNat < 2 * d + 1 := by omega
  unfold windowOffsets
  refine List.mem_flatMap.mpr ⟨(a + d).toNat, List.mem_range.mpr hx2, ?_⟩
  refine List.mem_map.mpr ⟨(b + d).toNat, List.mem_range.mpr hy2, ?_⟩
  rw [Prod.mk.injEq]
  exact ⟨hx, hy⟩

/-- Every padded window entry is below the maximum filter value. -/
theorem paddedAt_le_maxFilterAt (img : Arr2) (d i j : Nat) {p : Int × Int}
    (hp : p ∈ windowOffsets d) :
    paddedAt img ((i : Int) + p.1) ((j : Int) + p.2) ≤ maxFilterAt img d i j := by
  unfold maxFilterAt
  exact mem_le_foldl_max _ _ _ _ hp

/-- A valid row of the sub-array indexes a valid row of the channel. -/
theorem subOf_row_lt (channel : Arr2) (rect : Rect) {i : Nat}
    (hi : i < (subOf channel rect).rows) :
    sliceNorm channel.rows rect.top + i < channel.rows := by
  have h1 : sliceNorm channel.rows (rect.top + rect.height) ≤ channel.rows :=
    sliceNorm_le _ _
  have h2 : i < sliceNorm channel.rows (rect.top + rect.height) -
      sliceNorm channel.rows rect.top := hi
  omega

/-- A valid column of the sub-array indexes a valid column of the
channel. -/
theorem subOf_col_lt (channel : Arr2) (rect : Rect) {j : Nat}
    (hj : j < (subOf channel rect).cols) :
    sliceNorm channel.cols rect.left + j < channel.cols := by
  have h1 : sliceNorm channel.cols (rect.left + rect.width) ≤ channel.cols :=
    sliceNorm_le _ _
  have h2 : j < sliceNorm channel.cols (rect.left + rect.width) -
      sliceNorm channel.cols rect.left := hj
  omega

/-- A pixel that passes the peak mask strictly exceeds the threshold. -/
theorem peakMask_thr {img : Arr2} {d : Nat} {thr : ℚ} {i j : Nat}
    (h : peakMask img d thr i j = true) : thr < img.data i j := by
  unfold peakMask at h
  split at h
  · exact of_decide_eq_true h
  · simp only [Bool.and_eq_true] at h
    exact of_decide_eq_true h.2

/-- When every channel value is strictly below the threshold, `analyze`
finds no peak and returns all zeros. -/
theorem analyze_below_threshold (channel : Arr2) (rect : Rect) (sp thr : ℚ)
    (hlt : ∀ i j, i < channel.rows → j < channel.cols → channel.data i j < thr) :
    analyze channel rect sp thr = (0, 0, 0, 0) := by
  have hcoords : coordsRowMajor (subOf channel rect) 2 thr = [] := by
    rw [List.eq_nil_iff_forall_not_mem]
    intro p hp
    obtain ⟨hi, hj, hmask, _⟩ := mem_coordsRowMajor hp
    have hthr := peakMask_thr hmask
    have hdata : (subOf channel rect).data p.1 p.2 < thr :=
      hlt (sliceNorm channel.rows rect.top + p.1)
        (sliceNorm channel.cols rect.left + p.2)
        (subOf_row_lt channel rect hi) (subOf_col_lt channel rect hj)
    exact lt_asymm hdata hthr
  have hpeaks : peak_local_max (subOf channel rect) 2 thr = [] := by
    unfold peak_local_max
    rw [hcoords]
    rfl
  simp only [analyze]
  rw [hpeaks]
  simp

/-- C7: when every channel value is strictly below the threshold,
`analyze` returns count 0, total 0, average 0 and density 0; and in
general every accepted peak of the sub-array has value at least the
threshold and is a maximum of its 5-by-5 local neighborhood. -/
theorem analyze_threshold_and_peaks (channel : Arr2) (rect : Rect) (sp thr : ℚ) :
    ((∀ i j, i < channel.rows → j < channel.cols → channel.data i j < thr) →
      analyze channel rect sp thr = (0, 0, 0, 0)) ∧
    (∀ p, p ∈ peak_local_max (subOf channel rect) 2 thr →
      thr ≤ (subOf channel rect).data p.1 p.2 ∧
      ∀ q : Nat × Nat, q.1 < (subOf channel rect).rows →
        q.2 < (subOf channel rect).cols →
        q.1 ≤ p.1 + 2 → p.1 ≤ q.1 + 2 → q.2 ≤ p.2 + 2 → p.2 ≤ q.2 + 2 →
        (subOf channel rect).data q.1 q.2 ≤ (subOf channel rect).data p.1 p.2) := by
  constructor
  · exact analyze_below_threshold channel rect sp thr
  · intro p hp
    have hpc : p ∈ coordsRowMajor (subOf channel rect) 2 thr := by
      rcases mem_of_mem_ensureSpacing hp with h1 | h1
      · cases h1
      · exact mem_of_mem_sortDesc h1
    obtain ⟨hi, hj, hmask, hborder⟩ := mem_coordsRowMajor hpc
    refine ⟨le_of_lt (peakMask_thr hmask), ?_⟩
    have hraw : (subOf channel rect).data p.1 p.2 =
        maxFilterAt (subOf channel rect) 2 p.1 p.2 := by
      unfold peakMask at hmask
      split at hmask
      · rename_i hcond
        exfalso
        rcases hcond with hfoot | hsize
        · exact absurd hfoot (by norm_num)
        · have hr1 : (subOf channel rect).rows = 1 :=
            Nat.eq_one_of_mul_eq_one_right hsize
          unfold borderOK at hborder
          simp only [Bool.and_eq_true] at hborder
          have hb2 := of_decide_eq_true hborder.1.1.2
          rw [hr1] at hb2
          omega
      · simp only [Bool.and_eq_true] at hmask
        exact of_decide_eq_true hmask.1.2
    intro q hq1 hq2 hw1 hw2 hw3 hw4
    have hoff : ((q.1 : Int) - p.1, (q.2 : Int) - p.2) ∈ windowOffsets 2 :=
      mem_windowOffsets_of (by omega) (by omega) (by omega) (by omega)
    have hle := paddedAt_le_maxFilterAt (subOf channel rect) 2 p.1 p.2 hoff
    rw [show ((p.1 : Int) + ((q.1 : Int) - p.1)) = (q.1 : Int) from by ring,
        show ((p.2 : Int) + ((q.2 : Int) - p.2)) = (q.2 : Int) from by ring] at hle
    have hpad : paddedAt (subOf channel rect) (q.1 : Int) (q.2 : Int) =
        (subOf channel rect).data q.1 q.2 := by
      unfold paddedAt
      rw [if_pos ⟨Int.natCast_nonneg _, by exact_mod_cast hq1,
        Int.natCast_nonneg _, by exact_mod_cast hq2⟩]
      congr 1
    rw [hpad] at hle
    rw [hraw]
    exact hle

/-- Witness for C7: an all-zero channel is entirely below the default
threshold of 100, so `analyze` returns all zeros. -/
theorem analyze_threshold_and_peaks_witness :
    analyze chanZ4 rectA 1 100 = (0, 0, 0, 0) :=
  (analyze_threshold_and_peaks chanZ4 rectA 1 100).1
    (fun _ _ _ _ => by norm_num [chanZ4])

/-! ## Claim C1 -/

/-- C1 counterexample: `analyze` does not fail on a rectangle that
extends beyond the channel — on a 2-by-2 all-zero channel with a 5-by-5
rectangle it silently clips and returns a result (so report emission is
never aborted by an out-of-bounds rectangle). -/
theorem analyze_oob_returns_value :
    chanZ2.rows = 2 ∧ chanZ2.cols = 2 ∧
    rectOOB.top + rectOOB.height > 2 ∧ rectOOB.left + rectOOB.width > 2 ∧
    analyze chanZ2 rectOOB 1 = (0, 0, 0, 0) := by
  refine ⟨rfl, rfl, by decide, by decide, ?_⟩
  exact analyze_below_threshold chanZ2 rectOOB 1 100 (fun _ _ _ _ => by norm_num [chanZ2])

/-- A non-negative slice bound is clamped to the axis length. -/
theorem sliceNorm_nonneg_eq (n : Nat) (a : Int) (h : 0 ≤ a) :
    sliceNorm n a = min a.toNat n := by
  simp only [sliceNorm]
  rw [if_neg (not_lt.mpr h), max_eq_left h]

/-- Clamping the rectangle to the channel bounds does not change the
extracted sub-array: numpy slicing already clips. -/
theorem subOf_clamp_eq (c : Arr2) (r : Rect)
    (hl : 0 ≤ r.left) (ht : 0 ≤ r.top) (hw : 0 ≤ r.width) (hh : 0 ≤ r.height) :
    subOf c (clampRect c r) = subOf c r := by
  have hct : (clampRect c r).top = min r.top (c.rows : Int) := rfl
  have hch : (clampRect c r).height =
      min (r.top + r.height) (c.rows : Int) - min r.top (c.rows : Int) := rfl
  have hcl : (clampRect c r).left = min r.left (c.cols : Int) := rfl
  have hcw : (clampRect c r).width =
      min (r.left + r.width) (c.cols : Int) - min r.left (c.cols : Int) := rfl
  have h1 : sliceNorm c.rows (clampRect c r).top = sliceNorm c.rows r.top := by
    rw [hct, sliceNorm_nonneg_eq _ _ (by omega), sliceNorm_nonneg_eq _ _ ht]
    omega
  have h2 : sliceNorm c.rows ((clampRect c r).top + (clampRect c r).height) =
      sliceNorm c.rows (r.top + r.height) := by
    rw [hct, hch,
      show min r.top (c.rows : Int) +
          (min (r.top + r.height) (c.rows : Int) - min r.top (c.rows : Int)) =
          min (r.top + r.height) (c.rows : Int) from by ring,
      sliceNorm_nonneg_eq _ _ (by omega), sliceNorm_nonneg_eq _ _ (by omega)]
    omega
  have h3 : sliceNorm c.cols (clampRect c r).left = sliceNorm c.cols r.left := by
    rw [hcl, sliceNorm_nonneg_eq _ _ (by omega), sliceNorm_nonneg_eq _ _ hl]
    omega
  have h4 : sliceNorm c.cols ((clampRect c r).left + (clampRect c r).width) =
      sliceNorm c.cols (r.left + r.width) := by
    rw [hcl, hcw,
      show min r.left (c.cols : Int) +
          (min (r.left + r.width) (c.cols : Int) - min r.left (c.cols : Int)) =
          min (r.left + r.width) (c.cols : Int) from by ring,
      sliceNorm_nonneg_eq _ _ (by omega), sliceNorm_nonneg_eq _ _ (by omega)]
    omega
  unfold subOf slice2
  simp only [h1, h2, h3, h4]

/-- C1 as amended: out-of-bounds rectangles are not detected — the
sub-array is silently clipped to the channel, so `analyze` returns the
same count, total intensity and average intensity as for the clamped
in-bounds rectangle (while the density denominator still uses the
requested width and height), and it never signals an error. -/
theorem analyze_oob_clips (c : Arr2) (r : Rect) (sp thr : ℚ)
    (hl : 0 ≤ r.left) (ht : 0 ≤ r.top) (hw : 0 ≤ r.width) (hh : 0 ≤ r.height) :
    (analyze c r sp thr).1 = (analyze c (clampRect c r) sp thr).1 ∧
    (analyze c r sp thr).2.1 = (analyze c (clampRect c r) sp thr).2.1 ∧
    (analyze c r sp thr).2.2.1 = (analyze c (clampRect c r) sp thr).2.2.1 := by
  have hsub := subOf_clamp_eq c r hl ht hw hh
  refine ⟨?_, ?_, ?_⟩ <;> simp only [analyze, hsub]

/-- Witness for the amended C1 at the out-of-bounds rectangle. -/
theorem analyze_oob_clips_witness :
    (analyze chanZ2 rectOOB 1 100).1 =
      (analyze chanZ2 (clampRect chanZ2 rectOOB) 1 100).1 ∧
    (analyze chanZ2 rectOOB 1 100).2.1 =
      (analyze chanZ2 (clampRect chanZ2 rectOOB) 1 100).2.1 ∧
    (analyze chanZ2 rectOOB 1 100).2.2.1 =
      (analyze chanZ2 (clampRect chanZ2 rectOOB) 1 100).2.2.1 :=
  analyze_oob_clips chanZ2 rectOOB 1 100 (by decide) (by decide) (by decide) (by decide)

/-! ## Claim C3 -/

/-- C3 counterexample: submitting to a completed session fails with an
index-out-of-range error (reading `expected_rois[current_roi_index]`),
not with the design document's `InvalidState` error. -/
theorem submit_after_complete_not_invalidstate :
    submit sessComplete rectA = .error Err.indexError ∧
    submit sessComplete rectA ≠ .error Err.invalidState := by
  constructor
  · rfl
  · intro h
    rw [show submit sessComplete rectA = Except.error Err.indexError from rfl] at h
    exact Err.noConfusion (Except.error.inj h)

/-- C3 as amended: once the region index is exhausted (the completed
state), every further `submit` call fails — with an index error — so it is
never silently ignored and never stores a rectangle. -/
theorem submit_after_complete_errors (s : Session) (r : Rect)
    (h : s.expectedRois.length ≤ s.currentRoiIndex) :
    submit s r = .error Err.indexError := by
  unfold submit
  rw [dif_neg (by omega)]

/-- Witness for the amended C3 at the concrete completed session. -/
theorem submit_after_complete_errors_witness :
    submit sessComplete rectA = .error Err.indexError :=
  submit_after_complete_errors sessComplete rectA (by decide)

/-! ## Claim C2 -/

/-- C2: from the initial state, submitting three rectangles for the
hippocampus image and one for the thalamus image completes the session
(no further region is expected) and synchronously produces exactly 8
result rows, all hippocampus regions in insertion order before the
thalamus region, with the GOB row before the GOA row for each region. -/
theorem run_four_submits_complete (hc tc : List Arr2) (sp : ℚ) (r1 r2 r3 r4 : Rect) :
    ∃ (s : Session) (rows : List Row),
      runRep (initSession hc tc sp) [r1, r2, r3, r4] = .ok (s, some rows) ∧
      s.expectedRois.length ≤ s.currentRoiIndex ∧
      rows.length = 8 ∧
      rows.map (fun row => (row.region, row.chan)) =
        [("CA1", "GOB"), ("CA1", "GOA"), ("CA3", "GOB"), ("CA3", "GOA"),
         ("DG", "GOB"), ("DG", "GOA"), ("Thalamus", "GOB"), ("Thalamus", "GOA")] := by
  refine ⟨stateAfter hc tc sp [r1, r2, r3, r4],
    finish (stateAfter hc tc sp [r1, r2, r3, r4]), rfl, ?_, rfl, rfl⟩
  exact Nat.le_refl 1

/-! ## Claim C8 -/

/-- Characterisation of every successful run from the initial state: at
most four submissions can succeed, and the resulting state is determined
by the submitted rectangles. -/
theorem runRep_init_char (hc tc : List Arr2) (sp : ℚ) (rs : List Rect)
    (s : Session) (o : Option (List Row))
    (h : runRep (initSession hc tc sp) rs = .ok (s, o)) :
    rs.length ≤ 4 ∧ s = stateAfter hc tc sp rs := by
  rcases rs with _ | ⟨r1, _ | ⟨r2, _ | ⟨r3, _ | ⟨r4, _ | ⟨r5, rest⟩⟩⟩⟩⟩
  · have h2 : (Except.ok (stateAfter hc tc sp [], (none : Option (List Row))) :
        Except Err (Session × Option (List Row))) = .ok (s, o) := h
    injection h2 with h3
    injection h3 with hs ho
    exact ⟨by simp, hs.symm⟩
  · have h2 : (Except.ok (stateAfter hc tc sp [r1], (none : Option (List Row))) :
        Except Err (Session × Option (List Row))) = .ok (s, o) := h
    injection h2 with h3
    injection h3 with hs ho
    exact ⟨by simp, hs.symm⟩
  · have h2 : (Except.ok (stateAfter hc tc sp [r1, r2], (none : Option (List Row))) :
        Except Err (Session × Option (List Row))) = .ok (s, o) := h
    injection h2 with h3
    injection h3 with hs ho
    exact ⟨by simp, hs.symm⟩
  · have h2 : (Except.ok (stateAfter hc tc sp [r1, r2, r3], (none : Option (List Row))) :
        Except Err (Session × Option (List Row))) = .ok (s, o) := h
    injection h2 with h3
    injection h3 with hs ho
    exact ⟨by simp, hs.symm⟩
  · have h2 : (Except.ok (stateAfter hc tc sp [r1, r2, r3, r4],
        some (finish (stateAfter hc tc sp [r1, r2, r3, r4]))) :
        Except Err (Session × Option (List Row))) = .ok (s, o) := h
    injection h2 with h3
    injection h3 with hs ho
    exact ⟨by simp, hs.symm⟩
  · exfalso
    have h2 : (Except.error Err.indexError :
        Except Err (Session × Option (List Row))) = .ok (s, o) := h
    exact Except.noConfusion h2

/-- C8: along any successful run and any successful continuation of it,
the two ROI dictionaries only grow at the end (so a stored rectangle is
never replaced), and their keys follow the prompt sequences
`CA1, CA3, DG` and `Thalamus` in insertion order. -/
theorem rois_write_once (hc tc : List Arr2) (sp : ℚ) (rs rsx : List Rect)
    (s s' : Session) (o o' : Option (List Row))
    (h1 : runRep (initSession hc tc sp) rs = .ok (s, o))
    (h2 : runRep (initSession hc tc sp) (rs ++ rsx) = .ok (s', o')) :
    s.hippRois <+: s'.hippRois ∧ s.thalRois <+: s'.thalRois ∧
    s'.hippRois.map Prod.fst = ["CA1", "CA3", "DG"].take s'.hippRois.length ∧
    s'.thalRois.map Prod.fst = ["Thalamus"].take s'.thalRois.length := by
  obtain ⟨hl1, hs1⟩ := runRep_init_char hc tc sp rs s o h1
  obtain ⟨hl2, hs2⟩ := runRep_init_char hc tc sp (rs ++ rsx) s' o' h2
  subst hs1
  subst hs2
  rcases rs with _ | ⟨a1, _ | ⟨a2, _ | ⟨a3, _ | ⟨a4, _ | ⟨a5, arest⟩⟩⟩⟩⟩ <;>
    rcases rsx with _ | ⟨b1, _ | ⟨b2, _ | ⟨b3, _ | ⟨b4, _ | ⟨b5, brest⟩⟩⟩⟩⟩ <;>
      exact ⟨⟨_, rfl⟩, ⟨_, rfl⟩, rfl, rfl⟩

/-- Witness for C8: one captured region, then one more. -/
theorem rois_write_once_witness :
    sessOne.hippRois <+: sessTwo.hippRois ∧ sessOne.thalRois <+: sessTwo.thalRois ∧
    sessTwo.hippRois.map Prod.fst = ["CA1", "CA3", "DG"].take sessTwo.hippRois.length ∧
    sessTwo.thalRois.map Prod.fst = ["Thalamus"].take sessTwo.thalRois.length :=
  rois_write_once chans0 chans0 1 [rectA] [rectA] sessOne sessTwo none none rfl rfl
